import Mathlib

/-
Verification development for the sec-filing-intelligence pipeline.

Each definition below is a shallow embedding of a function or data model of
the repository, translated from the Python source under src/backend/app.
The file is organised by component:
  * diff lifecycle        (app/models/diff.py, app/diff/worker.py)
  * reliable queue        (app/orchestration/queue.py, app/diff/queue.py)
  * token budget          (app/groq/budget.py)
  * LLM retry policies    (app/summarization/worker.py, app/diff/worker.py)
  * chunk planner         (app/orchestration/planner.py)
  * sectionizer           (app/parsing/sectionizer.py)
Theorems settling the specification claims follow the definitions.
-/

namespace SecFiling

/-! ## Python string helpers

Small executable counterparts of the Python string operations the workers
use (`str.strip`, `str.splitlines`, `str.lower`, slicing). Only the newline
character is modelled as a line terminator, which is faithful here because
every text that reaches these helpers has been normalised to bare newlines.
-/

def pyWs (c : Char) : Bool :=
  c = ' ' || c = '\t' || c = '\n' || c = '\r' || c = '\x0b' || c = '\x0c'

/-- Python `str.strip()`: drop leading and trailing whitespace. -/
def pyStrip (s : String) : String :=
  String.mk (((s.toList.dropWhile pyWs).reverse.dropWhile pyWs).reverse)

/-- ASCII lower-casing of a string, character by character. -/
def pyLower (s : String) : String :=
  String.mk (s.toList.map Char.toLower)

def pyLen (s : String) : Nat :=
  s.toList.length

/-- Python slicing `s[:n]`. -/
def pyTake (s : String) (n : Nat) : String :=
  String.mk (s.toList.take n)

/-- Character-list core of Python `str.splitlines()` restricted to newline
terminators: split at each newline, with no trailing empty line. -/
def splitlinesL : List Char → List (List Char)
  | [] => []
  | c :: cs =>
    if c = '\n' then [] :: splitlinesL cs
    else
      match splitlinesL cs with
      | [] => [[c]]
      | l :: ls => (c :: l) :: ls

/-- Python `str.splitlines()` on texts whose only line terminator is the
newline character. -/
def pySplitlines (s : String) : List String :=
  (splitlinesL s.toList).map String.mk

/-! ## Diff lifecycle

Embedding of `DiffStatus` and the `FilingDiff` row mutations performed by
`DiffWorker._persist_results`, `DiffWorker._finalize_noop`, and
`DiffWorker._mark_failed` (src/backend/app/diff/worker.py). Only the columns
those transactions read or write are modelled; timestamps are omitted.
-/

inductive DiffStatus where
  | pending
  | processing
  | completed
  | failed
  | skipped
deriving DecidableEq, Repr

structure DiffRec where
  status : DiffStatus
  expected : Nat
  processed : Nat
  lastError : Option String
deriving DecidableEq, Repr

/-- Shared tail of `_persist_results` and `_finalize_noop` (the two code blocks
are verbatim identical): if status was PENDING or SKIPPED set PROCESSING, bump
`processed_sections` by 1, then set COMPLETED when `processed_sections >=
expected_sections` and status is not FAILED. -/
def advanceDiff (d : DiffRec) : DiffRec :=
  let d :=
    if d.status = DiffStatus.pending ∨ d.status = DiffStatus.skipped then
      { d with status := DiffStatus.processing }
    else d
  let d := { d with processed := d.processed + 1 }
  if d.expected ≤ d.processed ∧ d.status ≠ DiffStatus.failed then
    { d with status := DiffStatus.completed }
  else d

/-- Diff-row update of `_persist_results`: clear `last_error`, then advance.
(The row deletions/insertions of the same transaction are modelled separately
for the scenario claims.) -/
def persistStep (d : DiffRec) : DiffRec :=
  advanceDiff { d with lastError := none }

/-- Diff-row update of `_finalize_noop`: advance without touching `last_error`. -/
def noopStep (d : DiffRec) : DiffRec :=
  advanceDiff d

/-- Diff-row update of `_mark_failed`: set FAILED, store the truncated error,
and force `processed_sections = expected_sections`. -/
def markFailed (d : DiffRec) (msg : String) : DiffRec :=
  { d with
    status := DiffStatus.failed
    lastError := some (pyTake msg 2000)
    processed := d.expected }

/-- Observable events on one FilingDiff row: a diff-job persistence
(`_persist_results` or `_finalize_noop`, whose row updates coincide) or a
fatal-error transaction (`_mark_failed`). -/
inductive DiffOp where
  | advance
  | fail (msg : String)
deriving DecidableEq, Repr

def diffStep (d : DiffRec) : DiffOp → DiffRec
  | DiffOp.advance => advanceDiff d
  | DiffOp.fail msg => markFailed d msg

def execDiff (d : DiffRec) : List DiffOp → DiffRec
  | [] => d
  | op :: ops => execDiff (diffStep d op) ops

/-- Initial Diff row as created by the parser worker: status PENDING,
`processed_sections = 0`. -/
def initDiff (expected : Nat) : DiffRec :=
  { status := DiffStatus.pending, expected := expected, processed := 0, lastError := none }

def hasFail : List DiffOp → Prop
  | [] => False
  | DiffOp.advance :: ops => hasFail ops
  | DiffOp.fail _ :: _ => True

instance : DecidablePred hasFail := by
  intro ops
  induction ops with
  | nil => exact isFalse (fun h => h)
  | cons op ops ih =>
    cases op with
    | advance => exact ih
    | fail msg => exact isTrue trivial

/-! ## Diff worker message handling (app/diff/worker.py)

The database is reduced to the rows `_persist_results`, `_finalize_noop` and
`_mark_failed` touch: the locked FilingDiff row, the FilingSectionDiff rows,
and the `section_diff` FilingAnalysis rows keyed by job id. The Groq client
together with `json.loads`-based `_parse_changes` is an oracle input
(`LlmDiffOutcome`): a successful call carries the parsed JSON array of change
dicts. The `confidence` float of a change is not modelled (no claim reads
it); timestamps and the `diff_snippet` analysis extra are omitted. The
`metadata_json=` keyword `_persist_results` passes to every FilingSectionDiff
constructor call is no attribute of that model (whose `metadata` column is
itself a reserved SQLAlchemy declarative name — open question (c) of the
spec), so the constructor raises TypeError: any persistence with a nonempty
change list aborts and rolls back, which the embedding models explicitly.
-/

structure ChatResult where
  content : String
  model : String
  promptTokens : Nat
  completionTokens : Nat
  totalTokens : Nat
deriving DecidableEq, Repr

/-- One element of the JSON array returned by the diff LLM, before
`_normalize_change`. Absent keys are `none`. -/
structure RawChange where
  changeType : Option String
  summary : Option String
  impact : Option String
  evidence : Option String
deriving DecidableEq, Repr

structure NormChange where
  changeType : String
  summary : String
  impact : String
  evidence : String
deriving DecidableEq, Repr

/-- Python `change.get(key) or default`: `None` and the empty string both fall
back to the default. -/
def orDefault (v : Option String) (dflt : String) : String :=
  match v with
  | none => dflt
  | some s => if s = "" then dflt else s

/-- Embedding of `_normalize_change`. -/
def normalizeChange (c : RawChange) : NormChange :=
  let summary := pyStrip (orDefault c.summary "")
  let impact := pyLower (orDefault c.impact "medium")
  let impact := if impact = "high" ∨ impact = "medium" ∨ impact = "low" then impact
    else "medium"
  let changeType := pyLower (orDefault c.changeType "update")
  let changeType :=
    if changeType = "addition" ∨ changeType = "removal" ∨ changeType = "update" ∨
        changeType = "rewording" then changeType
    else "update"
  let evidence := pyStrip (orDefault c.evidence "")
  let summary := if 160 < pyLen summary then pyTake summary 157 ++ "..." else summary
  { changeType := changeType
    summary := if summary = "" then "Change detected." else summary
    impact := impact
    evidence := evidence }

structure SectionDiffRow where
  filingDiffId : Nat
  sectionOrdinal : Nat
  sectionTitle : String
  changeType : String
  summary : String
  impact : String
  evidence : String
  analysisLinked : Bool
deriving DecidableEq, Repr

structure AnalysisRow where
  jobId : String
  analysisType : String
  model : String
  content : String
deriving DecidableEq, Repr

structure DiffDB where
  diff : DiffRec
  rows : List SectionDiffRow
  analyses : List AnalysisRow
deriving DecidableEq, Repr

structure DTask where
  jobId : String
  diffId : Nat
  sectionOrdinal : Nat
  sectionTitle : String
deriving DecidableEq, Repr

/-- Outcome of `_diff_with_retry` composed with `_parse_changes`. -/
inductive LlmDiffOutcome where
  | ok (result : ChatResult) (changes : List RawChange)
  | parseFailure (msg : String)
  | retryable
  | fatal (msg : String)
deriving DecidableEq, Repr

/-- Upsert of the `section_diff` FilingAnalysis keyed by the task job id. -/
def upsertAnalysis (analyses : List AnalysisRow) (jobId : String) (r : ChatResult) :
    List AnalysisRow :=
  if analyses.any (fun a => a.jobId = jobId) then
    analyses.map (fun a =>
      if a.jobId = jobId then
        { jobId := jobId, analysisType := "section_diff", model := r.model,
          content := r.content }
      else a)
  else
    analyses ++ [{ jobId := jobId, analysisType := "section_diff", model := r.model,
                   content := r.content }]

/-- Embedding of the `_persist_results` transaction (the scenario database
always contains the locked Diff row, so the `locked_diff is None` early
return is not reachable here): delete the SectionDiff rows of
`(diff_id, ordinal)`, upsert or delete the job's Analysis, then insert one
FilingSectionDiff per normalised change and update the Diff row via
`persistStep`. The insert loop calls
`FilingSectionDiff(..., metadata_json=metadata_json)`; FilingSectionDiff has
no `metadata_json` attribute (and maps the reserved name `metadata`), so the
first constructed change raises TypeError and `session.begin()` rolls the
whole transaction back — modelled as `none`. Only a persistence whose change
list is empty commits. -/
def persistResultsDb (db : DiffDB) (t : DTask) (changes : List RawChange)
    (analysisResult : Option ChatResult) : Option DiffDB :=
  let normalized := changes.map normalizeChange
  let keptRows := db.rows.filter (fun r =>
    ¬ (r.filingDiffId = t.diffId ∧ r.sectionOrdinal = t.sectionOrdinal))
  let analyses :=
    match analysisResult with
    | some r => upsertAnalysis db.analyses t.jobId r
    | none => db.analyses.filter (fun a => ¬ a.jobId = t.jobId)
  if normalized.isEmpty then
    some { diff := persistStep db.diff, rows := keptRows, analyses := analyses }
  else none

def finalizeNoopDb (db : DiffDB) : DiffDB :=
  { db with diff := noopStep db.diff }

def markFailedDb (db : DiffDB) (msg : String) : DiffDB :=
  { db with diff := markFailed db.diff msg }

/-- Changes synthesised without an LLM call when the parsed (or absent)
change list is empty and exactly one side of the section pair exists. -/
def synthesizedChanges (currSection prevSection : Option String) : List RawChange :=
  match prevSection, currSection with
  | none, some c =>
    [{ changeType := some "addition",
       summary := some "New section added in the latest filing.",
       impact := some "medium", evidence := some (pyTake c 280) }]
  | some p, none =>
    [{ changeType := some "removal",
       summary := some "Section removed compared to the previous filing.",
       impact := some "medium", evidence := some (pyTake p 280) }]
  | _, _ => []

/-- Tail of `_handle_message` past the byte-equality shortcut. The guard
`diff_snippet.strip()` is nonempty exactly when the two sides' line lists
differ: `difflib.unified_diff` yields no output for equal line sequences, and
`_build_diff_snippet` returns the empty string when both sides are empty.
When `_persist_results` raises (TypeError on a nonempty change list), the
exception propagates through `_handle_message` to the `run` loop, which
leaves the job unacknowledged with the rolled-back database unchanged. -/
def handleDiffSnippet (db : DiffDB) (t : DTask) (currSection prevSection : Option String)
    (llm : LlmDiffOutcome) : Bool × DiffDB :=
  let currText := currSection.getD ""
  let prevText := prevSection.getD ""
  if pySplitlines prevText ≠ pySplitlines currText then
    match llm with
    | LlmDiffOutcome.retryable => (false, db)
    | LlmDiffOutcome.fatal msg => (true, markFailedDb db msg)
    | LlmDiffOutcome.parseFailure msg => (true, markFailedDb db msg)
    | LlmDiffOutcome.ok r changes =>
      let changes := if changes.isEmpty then synthesizedChanges currSection prevSection
        else changes
      match persistResultsDb db t changes (some r) with
      | some db2 => (true, db2)
      | none => (false, db)
  else
    match persistResultsDb db t (synthesizedChanges currSection prevSection) none with
    | some db2 => (true, db2)
    | none => (false, db)

/-- Embedding of `DiffWorker._handle_message` for a task whose Diff row and
filings exist (the metadata early-returns are not exercised by the claims);
returns the acknowledge flag and the updated database. -/
def handleDiffMessage (db : DiffDB) (t : DTask) (currSection prevSection : Option String)
    (llm : LlmDiffOutcome) : Bool × DiffDB :=
  match currSection, prevSection with
  | some c, some p =>
    if pyStrip c = pyStrip p then (true, finalizeNoopDb db)
    else handleDiffSnippet db t currSection prevSection llm
  | _, _ => handleDiffSnippet db t currSection prevSection llm

/-! ## Reliable queue (app/orchestration/queue.py)

Embedding of `RedisChunkQueue`. A task's payload is its deterministic JSON
serialisation (`json.dumps(..., sort_keys=True)`), and `from_payload` inverts
`to_payload`, so payloads are identified with task values. Redis structures
become pure data: the queue list (`RPUSH` appends to the tail = the end of
the list, `BRPOPLPUSH` takes from the tail into the head of the processing
list), the dedupe set, the expiry zset kept in insertion order (the claims
exercise at most one in-flight entry, so score order is immaterial), the two
hashes, and a counter standing in for `uuid4` token freshness. `RedisDiffQueue`
(app/diff/queue.py) has the same `push` and `ack` bodies. Wall-clock times are
explicit `now` arguments at each suspension point.
-/

structure QTask where
  jobId : String
  body : String
deriving DecidableEq, Repr

structure QueueCfg where
  visibilityTimeout : Nat
  requeueBatchSize : Nat
deriving DecidableEq, Repr

/-- Message returned by `pop`: task, payload, job id and visibility token. -/
structure QMessage where
  task : QTask
  payload : QTask
  jobId : String
  token : Nat
deriving DecidableEq, Repr

structure QState where
  main : List QTask
  dedupe : List String
  processingList : List QTask
  zset : List (Nat × Nat)
  payloadMap : List (Nat × QTask)
  tokenMap : List (String × Nat)
  nextToken : Nat
deriving DecidableEq, Repr

def initQState : QState := ⟨[], [], [], [], [], [], 0⟩

/-- Redis `HGET` on an association list. -/
def assocGet {κ α : Type} [BEq κ] (m : List (κ × α)) (k : κ) : Option α :=
  (m.find? (fun e => e.1 == k)).map (fun e => e.2)

/-- Redis `HSET` (overwrite) on an association list. -/
def assocSet {κ α : Type} [BEq κ] (m : List (κ × α)) (k : κ) (v : α) : List (κ × α) :=
  (k, v) :: m.filter (fun e => !(e.1 == k))

/-- Redis `HDEL` on an association list. -/
def assocDel {κ α : Type} [BEq κ] (m : List (κ × α)) (k : κ) : List (κ × α) :=
  m.filter (fun e => !(e.1 == k))

/-- Embedding of `RedisChunkQueue.push`: the scripted `SADD`-guarded `RPUSH`.
Returns false and leaves the state alone when the job id is already in the
dedupe set. -/
def qpush (s : QState) (t : QTask) : Bool × QState :=
  if s.dedupe.contains t.jobId then (false, s)
  else (true, { s with dedupe := t.jobId :: s.dedupe, main := s.main ++ [t] })

/-- Loop body of `_requeue_expired` for one expired token: read the payload,
drop the zset and payload-hash entries, and when the payload exists also drop
its token-hash entry, `LREM` it from the processing list and `LPUSH` it onto
the queue head. The dedupe set is intentionally untouched. -/
def reclaimToken (s : QState) (token : Nat) : QState :=
  let stored := assocGet s.payloadMap token
  let s1 := { s with zset := s.zset.filter (fun e => !(e.1 == token)),
                     payloadMap := assocDel s.payloadMap token }
  match stored with
  | some p =>
      { s1 with tokenMap := assocDel s1.tokenMap p.jobId,
                processingList := s1.processingList.filter (fun q => !(q == p)),
                main := p :: s1.main }
  | none =>
      { s1 with tokenMap := assocDel s1.tokenMap (toString token) }

/-- Embedding of `_requeue_expired`: reclaim up to `requeue_batch_size`
entries of the zset whose expiry is not in the future. -/
def requeueExpired (cfg : QueueCfg) (now : Nat) (s : QState) : QState :=
  if cfg.visibilityTimeout = 0 then s
  else
    let expired := ((s.zset.filter (fun e => e.2 ≤ now)).take cfg.requeueBatchSize).map
      (fun e => e.1)
    expired.foldl reclaimToken s

/-- Embedding of `RedisChunkQueue.pop`: recover expired deliveries, then
`BRPOPLPUSH` the next payload, mint a fresh token, and record it in the zset
and both hashes. -/
def qpop (cfg : QueueCfg) (now : Nat) (s : QState) : Option QMessage × QState :=
  let s := requeueExpired cfg now s
  match s.main.getLast? with
  | none => (none, s)
  | some p =>
    let token := s.nextToken
    let s2 := { s with
      main := s.main.dropLast
      processingList := p :: s.processingList
      zset := s.zset ++ [(token, now + cfg.visibilityTimeout)]
      payloadMap := assocSet s.payloadMap token p
      tokenMap := assocSet s.tokenMap p.jobId token
      nextToken := s.nextToken + 1 }
    (some ⟨p, p, p.jobId, token⟩, s2)

/-- Embedding of `RedisChunkQueue.ack`: a stale token or payload makes the ack
a no-op; otherwise the processing entries and the dedupe key are removed. -/
def qack (s : QState) (m : QMessage) : QState :=
  match assocGet s.tokenMap m.jobId with
  | none => s
  | some storedToken =>
    if storedToken ≠ m.token then s
    else
      match assocGet s.payloadMap storedToken with
      | none => s
      | some storedPayload =>
        if storedPayload ≠ m.payload then s
        else
          { s with payloadMap := assocDel s.payloadMap storedToken
                   zset := s.zset.filter (fun e => !(e.1 == storedToken))
                   tokenMap := assocDel s.tokenMap m.jobId
                   dedupe := s.dedupe.filter (fun j => !(j == m.jobId))
                   processingList := s.processingList.filter (fun q => !(q == m.payload)) }

/-- Push-relevant projection of `InMemoryChunkQueue`: the asyncio queue of
tasks and the dedupe set (`pop`/`ack` state is not needed by the claims). -/
structure MemQState where
  queue : List QTask
  dedupe : List String
deriving DecidableEq, Repr

/-- Embedding of `InMemoryChunkQueue.push` under the instance lock. -/
def memPush (s : MemQState) (t : QTask) : Bool × MemQState :=
  if s.dedupe.contains t.jobId then (false, s)
  else (true, { s with dedupe := t.jobId :: s.dedupe, queue := s.queue ++ [t] })

/-! ## Token budget (app/groq/budget.py)

Embedding of `TokenBudgetManager._reserve` and `_finalize` on one day-scoped
counter (one `(service, model, day)` scope). Counters are integers as in
Redis; the TTL bookkeeping and the gauge updates are omitted, the exhaustion
Prometheus counter is kept. `reserveIncrPhase` exposes the observable Redis
value between the INCRBY and the compensating DECRBY of a denied reserve.
-/

structure BudgetState where
  counter : Int
  exhaustions : Nat
deriving DecidableEq, Repr

/-- Observable counter value right after the `INCRBY` of `_reserve`, before
the limit check runs. -/
def reserveIncrPhase (counter amount : Int) : Int :=
  counter + amount

/-- Embedding of `_reserve` at its operation boundary: `INCRBY`; on overflow
`DECRBY` back, bump the exhaustion counter and raise `BudgetExceededError`
(`none`); otherwise grant a reservation of `amount`. -/
def reserveStep (limit : Int) (s : BudgetState) (amount : Int) : Option Int × BudgetState :=
  let total := s.counter + amount
  if limit < total then
    (none, { counter := total - amount, exhaustions := s.exhaustions + 1 })
  else
    (some amount, { counter := total, exhaustions := s.exhaustions })

/-- Embedding of `_finalize` (commit with the used total; release passes
`used = 0`): clamp `used` at 0, apply `delta = used - reserved` as a decrement
or increment, bumping the exhaustion counter when an over-commit passes the
limit (the counter itself is left above the limit). -/
def finalizeStep (limit : Int) (s : BudgetState) (reserved used0 : Int) : BudgetState :=
  let used := max used0 0
  let delta := used - reserved
  if delta = 0 then s
  else if delta < 0 then { s with counter := s.counter + delta }
  else
    let newTotal := s.counter + delta
    { counter := newTotal
      exhaustions := if limit < newTotal then s.exhaustions + 1 else s.exhaustions }

/-- Embedding of `GroqBudgetLimiter.reserve`: the estimate is floored at 1. -/
def limiterReserve (limit : Int) (s : BudgetState) (estimate : Int) :
    Option Int × BudgetState :=
  reserveStep limit s (max estimate 1)

/-- Operation-boundary events on one budget scope: a reserve (granted or
denied) or a finalize (commit/release) of an earlier reservation. -/
inductive BudgetOp where
  | reserveOp (amount : Int)
  | finalizeOp (reserved used : Int)
deriving DecidableEq, Repr

def budgetStep (limit : Int) (s : BudgetState) : BudgetOp → BudgetState
  | BudgetOp.reserveOp a => (reserveStep limit s a).2
  | BudgetOp.finalizeOp r u => finalizeStep limit s r u

def execBudget (limit : Int) (s : BudgetState) : List BudgetOp → BudgetState
  | [] => s
  | op :: ops => execBudget limit (budgetStep limit s op) ops

/-- Well-formed finalize: the reservation was nonnegative and the committed
usage does not exceed it (`release` uses 0). -/
def commitsBounded : BudgetOp → Prop
  | BudgetOp.reserveOp _ => True
  | BudgetOp.finalizeOp r u => 0 ≤ r ∧ u ≤ r

instance (op : BudgetOp) : Decidable (commitsBounded op) := by
  cases op with
  | reserveOp a => exact isTrue trivial
  | finalizeOp r u => exact inferInstanceAs (Decidable (0 ≤ r ∧ u ≤ r))

/-! ## LLM retry policies

Embeddings of `SectionSummaryWorker._summarize_with_retry` and
`DiffWorker._diff_with_retry`. The Groq client is an oracle: a list of the
outcomes successive `chat_completion` calls would produce (a successful
result, an `HTTPStatusError` with a status code, or a network error). The
sleeps between attempts are immaterial to the classification.
-/

inductive LlmResp where
  | success (r : ChatResult)
  | httpStatus (status : Nat)
  | netError
deriving DecidableEq, Repr

inductive RetryClass where
  | ok (r : ChatResult)
  | retryable
  | fatal
  | inputExhausted
deriving DecidableEq, Repr

/-- Embedding of `_summarize_with_retry`: statuses 408, 429 and every status
at or above 500, and any other `httpx.HTTPError` (network error), are retried
with backoff until `attempt > max_retries`, at which point
`RetryableLLMError` is raised; other statuses raise `FatalLLMError`.
`inputExhausted` is a modelling artifact for oracles shorter than the run and
is unreachable in the theorems. -/
def summarizeWithRetry (maxRetries : Nat) : Nat → List LlmResp → RetryClass
  | _, [] => RetryClass.inputExhausted
  | attempt, r :: rest =>
    match r with
    | LlmResp.success res => RetryClass.ok res
    | LlmResp.httpStatus status =>
      if status = 408 ∨ status = 429 ∨ 500 ≤ status then
        if maxRetries < attempt + 1 then RetryClass.retryable
        else summarizeWithRetry maxRetries (attempt + 1) rest
      else RetryClass.fatal
    | LlmResp.netError =>
      if maxRetries < attempt + 1 then RetryClass.retryable
      else summarizeWithRetry maxRetries (attempt + 1) rest

/-- Embedding of `_diff_with_retry`: only statuses 429, 500, 502, 503 and 504
and `httpx.RequestError` (network error) are retried, and exhausting
`max_retries` raises `FatalDiffError`; every other status is fatal at once.
No branch raises `RetryableDiffError`. -/
def diffWithRetry (maxRetries : Nat) : Nat → List LlmResp → RetryClass
  | _, [] => RetryClass.inputExhausted
  | attempt, r :: rest =>
    match r with
    | LlmResp.success res => RetryClass.ok res
    | LlmResp.httpStatus status =>
      if status = 429 ∨ status = 500 ∨ status = 502 ∨ status = 503 ∨ status = 504 then
        if maxRetries < attempt + 1 then RetryClass.fatal
        else diffWithRetry maxRetries (attempt + 1) rest
      else RetryClass.fatal
    | LlmResp.netError =>
      if maxRetries < attempt + 1 then RetryClass.fatal
      else diffWithRetry maxRetries (attempt + 1) rest

/-- Embedding of `SectionSummaryWorker._resolve_total_tokens`. -/
def resolveTotalTokens (maxOutputTokens : Nat) (r : ChatResult) : Nat :=
  let t1 := r.totalTokens
  let t2 := if t1 = 0 then r.promptTokens + r.completionTokens else t1
  if t2 = 0 then maxOutputTokens else t2

structure SummaryHandleResult where
  ack : Bool
  budget : BudgetState
  deferrals : Nat
  persisted : Bool
deriving DecidableEq, Repr

/-- Embedding of `SectionSummaryWorker._handle_message` with a budget limiter
configured: missing filing/section acks and drops; a denied reservation
records a deferral, sleeps, and returns without ack; a retryable LLM failure
releases the reservation and returns without ack; a fatal one releases and
acks; success persists the analysis and commits the resolved total. The
persisted Analysis row itself is beyond what the budget claims read and is
recorded as a flag. -/
def summaryHandleMessage (limit : Int) (maxRetries maxOutputTokens : Nat)
    (bs : BudgetState) (deferrals : Nat) (sectionFound : Bool) (estimate : Int)
    (resps : List LlmResp) : SummaryHandleResult :=
  if sectionFound then
    match limiterReserve limit bs estimate with
    | (none, bs1) => ⟨false, bs1, deferrals + 1, false⟩
    | (some reserved, bs1) =>
      match summarizeWithRetry maxRetries 0 resps with
      | RetryClass.ok r =>
        let bs2 := finalizeStep limit bs1 reserved ((resolveTotalTokens maxOutputTokens r : Nat) : Int)
        ⟨true, bs2, deferrals, true⟩
      | RetryClass.retryable => ⟨false, finalizeStep limit bs1 reserved 0, deferrals, false⟩
      | RetryClass.fatal => ⟨true, finalizeStep limit bs1 reserved 0, deferrals, false⟩
      | RetryClass.inputExhausted => ⟨false, bs1, deferrals, false⟩
  else ⟨true, bs, deferrals, false⟩

/-! ## Chunk planner (app/orchestration/planner.py)

Embedding of `ChunkPlanner`: `_split_paragraphs` (normalise CRLF, split on
runs of two or more newlines, strip each block), `_estimate_tokens`
(`max(1, ceil(words * 1.3))`, where the IEEE double nearest 1.3 agrees with
the exact 13/10 at every word count arising here), `_chunk_section`, and
`plan`. The single `job_id = f"<accession>-<int(time.time())>"` computed once
per call is made explicit by an epoch-seconds argument.
-/

/-- Python `re.sub` with pattern CRLF replaced by a newline. -/
def replaceCrLfL : List Char → List Char
  | [] => []
  | '\r' :: '\n' :: rest => '\n' :: replaceCrLfL rest
  | c :: rest => c :: replaceCrLfL rest

/-- Python `re.split` on runs of two or more newlines, as a left-to-right
scan: `cur` is the current block reversed and `nl` counts the pending
newline run (capped at 2, since any longer run acts the same). A run of one
newline stays inside the block; a run of two or more separates blocks. -/
def splitBlocksAux (cur : List Char) (nl : Nat) : List Char → List (List Char)
  | [] =>
    if nl ≥ 2 then [cur.reverse, []]
    else [(List.replicate nl '\n' ++ cur).reverse]
  | c :: rest =>
    if c = '\n' then splitBlocksAux cur (min (nl + 1) 2) rest
    else if nl ≥ 2 then cur.reverse :: splitBlocksAux [c] 0 rest
    else splitBlocksAux (c :: (List.replicate nl '\n' ++ cur)) 0 rest

def splitBlocksL (cs : List Char) : List (List Char) :=
  splitBlocksAux [] 0 cs

def splitParagraphs (text : String) : List String :=
  (splitBlocksL (replaceCrLfL text.toList)).map (fun b => pyStrip (String.mk b))

/-- Python `str.split()` (split on whitespace runs, no empty words), as the
word list accumulator. -/
def wordsAux (cur : List Char) : List Char → List (List Char)
  | [] => if cur.isEmpty then [] else [cur.reverse]
  | c :: cs =>
    if pyWs c then
      if cur.isEmpty then wordsAux [] cs else cur.reverse :: wordsAux [] cs
    else wordsAux (c :: cur) cs

def pyWordCount (s : String) : Nat :=
  (wordsAux [] s.toList).length

/-- Embedding of `_estimate_tokens`: 0 for the empty string, else
`max(1, ceil(words * 1.3))` with the ceiling taken over exact 13/10. -/
def estimateTokens (s : String) : Nat :=
  if s = "" then 0
  else max 1 ((13 * pyWordCount s + 9) / 10)

/-- Python `sep.join(parts)`. -/
def joinSep (sep : String) : List String → String
  | [] => ""
  | [s] => s
  | s :: rest => s ++ sep ++ joinSep sep rest

structure ChunkPlannerOptions where
  maxTokensPerChunk : Nat
  minTokensPerChunk : Nat
  paragraphOverlap : Nat
deriving DecidableEq, Repr

/-- The source defaults: 800 / 200 / 1. -/
def defaultPlannerOptions : ChunkPlannerOptions :=
  { maxTokensPerChunk := 800, minTokensPerChunk := 200, paragraphOverlap := 1 }

structure Chunk where
  startIndex : Nat
  endIndex : Nat
  content : String
  estimatedTokens : Nat
deriving DecidableEq, Repr

/-- Chunk-closing block of `_chunk_section`: join the accumulated paragraphs
with blank lines, re-estimate, and append the chunk only when the estimate
reaches `min_tokens_per_chunk`; the start/end indices are the synthetic
`len(chunks) * paragraph_overlap` values of the source. -/
def closeChunk (opts : ChunkPlannerOptions) (chunks : List Chunk) (cur : List String) :
    List Chunk :=
  let content := joinSep "\n\n" cur
  let tokens := estimateTokens content
  if opts.minTokensPerChunk ≤ tokens then
    chunks ++ [{ startIndex := chunks.length * opts.paragraphOverlap
                 endIndex := chunks.length * opts.paragraphOverlap + cur.length
                 content := content
                 estimatedTokens := tokens }]
  else chunks

/-- Main loop of `_chunk_section` over the paragraph list: close the current
chunk when the next paragraph would push the running token sum past
`max_tokens_per_chunk`, then close the remainder at the end. -/
def chunkAux (opts : ChunkPlannerOptions) (chunks : List Chunk) (cur : List String)
    (curTokens : Nat) : List String → List Chunk
  | [] => if cur.isEmpty then chunks else closeChunk opts chunks cur
  | p :: rest =>
    let pTokens := estimateTokens p
    if opts.maxTokensPerChunk < curTokens + pTokens ∧ ¬ cur.isEmpty then
      chunkAux opts (closeChunk opts chunks cur) [p] pTokens rest
    else
      chunkAux opts chunks (cur ++ [p]) (curTokens + pTokens) rest

def chunkSectionParas (opts : ChunkPlannerOptions) (paragraphs : List String) : List Chunk :=
  chunkAux opts [] [] 0 paragraphs

structure PlannerSection where
  ordinal : Nat
  title : String
  content : String
deriving DecidableEq, Repr

/-- Embedding of `_chunk_section`. -/
def chunkSection (opts : ChunkPlannerOptions) (s : PlannerSection) : List Chunk :=
  chunkSectionParas opts (splitParagraphs s.content)

/-- Specification view of the accumulation loop: the consecutive paragraph
groups `_chunk_section` closes, before the minimum-size filter and the
content join. Used to state that emitted chunks never share paragraphs. -/
def chunkGroups (maxT : Nat) (cur : List String) (curTokens : Nat) :
    List String → List (List String)
  | [] => if cur.isEmpty then [] else [cur]
  | p :: rest =>
    let pTokens := estimateTokens p
    if maxT < curTokens + pTokens ∧ ¬ cur.isEmpty then
      cur :: chunkGroups maxT [p] pTokens rest
    else
      chunkGroups maxT (cur ++ [p]) (curTokens + pTokens) rest

structure ChunkTask where
  jobId : String
  accessionNumber : String
  sectionOrdinal : Nat
  sectionTitle : String
  chunkIndex : Nat
  startParagraphIndex : Nat
  endParagraphIndex : Nat
  content : String
  estimatedTokens : Nat
deriving DecidableEq, Repr

/-- Embedding of `ChunkPlanner.plan`: one `ChunkTask` per chunk of each
section, every one of them carrying the job id computed once at the top of
the call. -/
def planChunkJobs (accessionNumber : String) (epochSeconds : Nat)
    (opts : ChunkPlannerOptions) (sections : List PlannerSection) : List ChunkTask :=
  let jobId := accessionNumber ++ "-" ++ toString epochSeconds
  (sections.map (fun sec =>
    (chunkSection opts sec).enum.map (fun ic =>
      { jobId := jobId
        accessionNumber := accessionNumber
        sectionOrdinal := sec.ordinal
        sectionTitle := sec.title
        chunkIndex := ic.1
        startParagraphIndex := ic.2.startIndex
        endParagraphIndex := ic.2.endIndex
        content := ic.2.content
        estimatedTokens := ic.2.estimatedTokens : ChunkTask }))).flatten

/-- A space-joined repetition of one word, used to build section contents of
a prescribed word count. -/
def repeatWords (n : Nat) : String :=
  joinSep " " (List.replicate n "word")

/-! ## Sectionizer (app/parsing/sectionizer.py)

Embedding of `_normalize_whitespace`, the two heading regexes, and
`extract_sections`. The two regexes are anchored prefix patterns whose
quantifier chain never needs backtracking, so each is realised as a greedy
left-to-right scan; the uppercase-heading pattern must span six or more
characters counting trailing spaces absorbed by its character class.
-/

/-- Python `re.sub` collapsing runs of three or more newlines to two, as a
scan tracking how many newlines of the current run have been kept (capped at
2; further newlines of the run are dropped). -/
def collapseNlAux (kept : Nat) : List Char → List Char
  | [] => []
  | c :: rest =>
    if c = '\n' then
      if kept < 2 then '\n' :: collapseNlAux (kept + 1) rest
      else collapseNlAux kept rest
    else c :: collapseNlAux 0 rest

def collapseNl3L (cs : List Char) : List Char :=
  collapseNlAux 0 cs

/-- Embedding of `_normalize_whitespace`: CRLF to newline, collapse newline
runs of three or more to two, strip. -/
def normalizeWhitespace (text : String) : String :=
  pyStrip (String.mk (collapseNl3L (replaceCrLfL text.toList)))

/-- Python `str.split` on a literal newline (keeps empty pieces). -/
def splitOnNlL (cs : List Char) : List (List Char) :=
  match cs with
  | [] => [[]]
  | '\n' :: rest => [] :: splitOnNlL rest
  | c :: rest =>
    match splitOnNlL rest with
    | [] => [[c]]
    | l :: ls => (c :: l) :: ls

def isAsciiUpperAlpha (c : Char) : Bool := 'A' ≤ c && c ≤ 'Z'

def isAsciiAlpha (c : Char) : Bool := ('A' ≤ c && c ≤ 'Z') || ('a' ≤ c && c ≤ 'z')

def isAsciiDigit (c : Char) : Bool := '0' ≤ c && c ≤ '9'

/-- Character class `[0-9A-Za-z\.]` of the item-heading pattern. -/
def isAlnumDot (c : Char) : Bool := isAsciiAlpha c || isAsciiDigit c || c = '.'

/-- Character class `[A-Z0-9 &/,\-]` of the uppercase-heading pattern. -/
def isUpperClass (c : Char) : Bool :=
  isAsciiUpperAlpha c || isAsciiDigit c || c = ' ' || c = '&' || c = '/' || c = ',' || c = '-'

/-- Matcher for `^\s*(Item\s+[0-9A-Za-z\.]+\s*[A-Za-z ]*)` (case-insensitive
`re.match`): returns the captured group, already stripped as the caller does.
Every quantifier after the literal `Item` is a greedy run over its class. -/
def itemHeadingTitle (line : List Char) : Option String :=
  match line.dropWhile pyWs with
  | c1 :: c2 :: c3 :: c4 :: rest =>
    if c1.toLower = 'i' ∧ c2.toLower = 't' ∧ c3.toLower = 'e' ∧ c4.toLower = 'm' then
      let ws1 := rest.takeWhile pyWs
      if ws1.isEmpty then none
      else
        let rest1 := rest.dropWhile pyWs
        let alnum := rest1.takeWhile isAlnumDot
        if alnum.isEmpty then none
        else
          let rest2 := rest1.dropWhile isAlnumDot
          let ws2 := rest2.takeWhile pyWs
          let rest3 := rest2.dropWhile pyWs
          let letters := rest3.takeWhile (fun c => isAsciiAlpha c || c = ' ')
          some (pyStrip (String.mk
            (c1 :: c2 :: c3 :: c4 :: (ws1 ++ alnum ++ ws2 ++ letters))))
    else none
  | _ => none

/-- Python `str.title()` over ASCII: upper-case each letter that follows a
non-letter, lower-case the rest. -/
def titleCaseAux (prevAlpha : Bool) : List Char → List Char
  | [] => []
  | c :: rest =>
    let c' := if isAsciiAlpha c then (if prevAlpha then c.toLower else c.toUpper) else c
    c' :: titleCaseAux (isAsciiAlpha c) rest

def titleCase (s : String) : String :=
  String.mk (titleCaseAux false s.toList)

/-- Matcher for `^\s*([A-Z][A-Z0-9 &/,\-]{5,})\s*$`: after stripping, the
line must start with an uppercase letter, continue within the class, and the
group must reach six characters, possibly padded by trailing spaces (which
the class contains) before the final `\s*$`. Returns the stored title, i.e.
the group stripped and title-cased as at the call site. -/
def upperHeadingTitle (line : List Char) : Option String :=
  let s := line.dropWhile pyWs
  let r := (s.reverse.dropWhile pyWs).reverse
  let trailing := s.drop r.length
  let spacePrefix := trailing.takeWhile (fun c => c = ' ')
  match r with
  | [] => none
  | c :: rest =>
    if isAsciiUpperAlpha c ∧ rest.all isUpperClass ∧
        6 ≤ r.length + spacePrefix.length then
      some (titleCase (String.mk r))
    else none

structure Section where
  title : String
  content : String
deriving DecidableEq, Repr

/-- Heading scan of `extract_sections`: per line, try the item pattern first
(`continue` on success), then the uppercase pattern. -/
def headingIndices (lines : List String) : List (String × Nat) :=
  lines.enum.filterMap (fun il =>
    match itemHeadingTitle il.2.toList with
    | some t => some (t, il.1)
    | none =>
      match upperHeadingTitle il.2.toList with
      | some t => some (t, il.1)
      | none => none)

/-- Whitespace-run collapsing of `_sanitize_title` (`re.sub` of `\s+` with
one space), as a scan remembering whether the previous character was
whitespace. -/
def collapseWsAux (prevWs : Bool) : List Char → List Char
  | [] => []
  | c :: rest =>
    if pyWs c then
      if prevWs then collapseWsAux true rest
      else ' ' :: collapseWsAux true rest
    else c :: collapseWsAux false rest

def collapseWsL (cs : List Char) : List Char :=
  collapseWsAux false cs

def sanitizeTitle (title : String) : String :=
  titleCase (pyStrip (String.mk (collapseWsL title.toList)))

/-- Body of the section between heading line `start` (exclusive) and line
`stop` (exclusive), joined and stripped as in the source. -/
def sectionBody (lines : List String) (start stop : Nat) : String :=
  pyStrip (joinSep "\n" ((lines.drop (start + 1)).take (stop - start - 1)))

/-- Section assembly of `extract_sections` from consecutive heading pairs,
dropping empty bodies. -/
def buildSections (lines : List String) (indices : List (String × Nat)) : List Section :=
  (indices.zip indices.tail).filterMap (fun pr =>
    let body := sectionBody lines pr.1.2 pr.2.2
    if body = "" then none
    else some { title := sanitizeTitle pr.1.1, content := body })

/-- Normalised text split into lines exactly as `extract_sections` does. -/
def linesOfText (text : String) : List String :=
  (splitOnNlL (normalizeWhitespace text).toList).map String.mk

/-- Embedding of `extract_sections`. -/
def extractSections (text : String) : List Section :=
  let ntext := normalizeWhitespace text
  let lines := linesOfText text
  let indices := headingIndices lines
  if indices.isEmpty then [{ title := "Full Filing", content := ntext }]
  else
    let sections := buildSections lines (indices ++ [("__END__", lines.length)])
    if sections.isEmpty then [{ title := "Full Filing", content := ntext }]
    else sections

/-! ### Scenario S4

Two 10-K filings of one issuer; the previous filing has sections 1..3 with
contents A, B, C and the current one A, B2, C. The Diff row starts PENDING
with `expected_sections = 3`, and the stubbed LLM returns one `update` change
for ordinal 2 and an empty array for ordinals 1 and 3. -/

def s4Task (i : Nat) : DTask :=
  { jobId := "0001000000-25-000001:diff:" ++ toString i ++ ":update"
    diffId := 7
    sectionOrdinal := i
    sectionTitle := "Item " ++ toString i }

def s4UpdateResult : ChatResult :=
  { content := "[one update change]", model := "llama-3.3-70b-versatile",
    promptTokens := 150, completionTokens := 60, totalTokens := 210 }

def s4UpdateChanges : List RawChange :=
  [{ changeType := some "update"
     summary := some "Expanded risk discussion."
     impact := some "high"
     evidence := some "supply chain disruptions" }]

def s4UpdateStub : LlmDiffOutcome :=
  LlmDiffOutcome.ok s4UpdateResult s4UpdateChanges

def s4EmptyStub : LlmDiffOutcome :=
  LlmDiffOutcome.ok
    { content := "[]", model := "llama-3.3-70b-versatile",
      promptTokens := 100, completionTokens := 5, totalTokens := 105 }
    []

def s4Db0 : DiffDB := { diff := initDiff 3, rows := [], analyses := [] }

def s4Run1 : Bool × DiffDB :=
  handleDiffMessage s4Db0 (s4Task 1) (some "Alpha content.") (some "Alpha content.") s4EmptyStub

def s4Run2 : Bool × DiffDB :=
  handleDiffMessage s4Run1.2 (s4Task 2) (some "Beta content revised.") (some "Beta content.")
    s4UpdateStub

def s4Run3 : Bool × DiffDB :=
  handleDiffMessage s4Run2.2 (s4Task 3) (some "Gamma content.") (some "Gamma content.")
    s4EmptyStub

-- Basic step lemmas used by the lifecycle theorems.

theorem advanceDiff_eq (d : DiffRec) :
    advanceDiff d =
      { status :=
          if d.expected ≤ d.processed + 1 ∧
              (if d.status = DiffStatus.pending ∨ d.status = DiffStatus.skipped then
                DiffStatus.processing else d.status) ≠ DiffStatus.failed then
            DiffStatus.completed
          else if d.status = DiffStatus.pending ∨ d.status = DiffStatus.skipped then
            DiffStatus.processing
          else d.status
        expected := d.expected
        processed := d.processed + 1
        lastError := d.lastError } := by
  unfold advanceDiff
  by_cases h1 : d.status = DiffStatus.pending ∨ d.status = DiffStatus.skipped
  · simp only [if_pos h1]
    by_cases h2 : d.expected ≤ d.processed + 1
    · simp [h2]
    · simp [h2]
  · simp only [if_neg h1]
    by_cases h2 : d.expected ≤ d.processed + 1 ∧ d.status ≠ DiffStatus.failed
    · simp [h2]
    · simp [h2]

theorem advanceDiff_processed (d : DiffRec) :
    (advanceDiff d).processed = d.processed + 1 := by
  rw [advanceDiff_eq]

theorem advanceDiff_expected (d : DiffRec) :
    (advanceDiff d).expected = d.expected := by
  rw [advanceDiff_eq]

theorem markFailed_absorb (d : DiffRec) (h : d.status = DiffStatus.failed) (op : DiffOp) :
    (diffStep d op).status = DiffStatus.failed := by
  cases op with
  | advance =>
    show (advanceDiff d).status = DiffStatus.failed
    rw [advanceDiff_eq]
    simp [h]
  | fail msg => rfl

theorem execDiff_failed_invariant (ops : List DiffOp) :
    ∀ d : DiffRec, d.status = DiffStatus.failed →
      (execDiff d ops).status = DiffStatus.failed := by
  induction ops with
  | nil => intro d h; exact h
  | cons op ops ih =>
    intro d h
    exact ih (diffStep d op) (markFailed_absorb d h op)

theorem execDiff_hasFail (ops : List DiffOp) :
    ∀ d : DiffRec, hasFail ops → (execDiff d ops).status = DiffStatus.failed := by
  induction ops with
  | nil => intro d h; exact absurd h (fun h => h)
  | cons op ops ih =>
    intro d h
    cases op with
    | advance => exact ih (diffStep d DiffOp.advance) h
    | fail msg =>
      by_cases hf : hasFail ops
      · exact ih _ hf
      · exact execDiff_failed_invariant ops (markFailed d msg) rfl

/-- Closed form for a run of `k` persistences from a fresh PENDING diff with
`expected = e > 0`: the counter counts the persistences and the status is
PENDING before the first one, COMPLETED once the counter reaches `e`, and
PROCESSING in between. -/
theorem advance_iter_spec (e : Nat) (k : Nat) :
    (advanceDiff^[k] (initDiff e)).processed = k ∧
    (advanceDiff^[k] (initDiff e)).expected = e ∧
    (advanceDiff^[k] (initDiff e)).status =
      (if k = 0 then DiffStatus.pending
       else if e ≤ k then DiffStatus.completed else DiffStatus.processing) := by
  induction k with
  | zero => exact ⟨rfl, rfl, rfl⟩
  | succ k ih =>
    obtain ⟨hp, hexp, hst⟩ := ih
    rw [Function.iterate_succ_apply']
    generalize hD : advanceDiff^[k] (initDiff e) = D at hp hexp hst
    rw [advanceDiff_eq]
    refine ⟨by rw [hp], hexp, ?_⟩
    simp only [hp, hexp]
    by_cases hk : k = 0
    · subst hk
      simp only [if_pos rfl] at hst
      simp only [hst]
      have hk1 : ¬ (0 + 1 : Nat) = 0 := by omega
      by_cases hle : e ≤ 0 + 1
      · simp [hle, hk1]
      · simp [hle, hk1]
    · have hk1 : ¬ (k + 1) = 0 := by omega
      simp only [if_neg hk] at hst
      by_cases hle : e ≤ k
      · have hle1 : e ≤ k + 1 := by omega
        simp only [if_pos hle] at hst
        simp [hst, hle1, hk1]
      · simp only [if_neg hle] at hst
        by_cases hle1 : e ≤ k + 1
        · simp [hst, hle1, hk1]
        · simp [hst, hle1, hk1]

theorem execDiff_replicate (k : Nat) :
    ∀ d : DiffRec, execDiff d (List.replicate k DiffOp.advance) = advanceDiff^[k] d := by
  induction k with
  | zero => intro d; rfl
  | succ k ih =>
    intro d
    rw [List.replicate_succ]
    show execDiff (advanceDiff d) (List.replicate k DiffOp.advance) = advanceDiff^[k + 1] d
    rw [ih (advanceDiff d), Function.iterate_succ_apply]

theorem noFail_eq_replicate (ops : List DiffOp) (h : ¬ hasFail ops) :
    ops = List.replicate ops.length DiffOp.advance := by
  induction ops with
  | nil => rfl
  | cons op ops ih =>
    cases op with
    | advance =>
      have : ¬ hasFail ops := h
      rw [List.length_cons, List.replicate_succ]
      exact congrArg _ (ih this)
    | fail msg => exact absurd trivial h

theorem hasFail_count (ops : List DiffOp) (h : ¬ hasFail ops) (e : Nat) :
    (execDiff (initDiff e) ops).processed = ops.length ∧
    (execDiff (initDiff e) ops).status =
      (if ops.length = 0 then DiffStatus.pending
       else if e ≤ ops.length then DiffStatus.completed else DiffStatus.processing) := by
  rw [noFail_eq_replicate ops h, execDiff_replicate]
  obtain ⟨hp, _, hst⟩ := advance_iter_spec e ops.length
  simp only [List.length_replicate]
  exact ⟨hp, hst⟩

theorem hasFail_replicate (k : Nat) : ¬ hasFail (List.replicate k DiffOp.advance) := by
  induction k with
  | zero => exact fun h => h
  | succ k ih => exact ih

theorem status_formula_completed (e k : Nat) (he : 0 < e) :
    ((if k = 0 then DiffStatus.pending
      else if e ≤ k then DiffStatus.completed else DiffStatus.processing) =
     DiffStatus.completed) ↔ e ≤ k := by
  by_cases hk : k = 0
  · subst hk
    rw [if_pos rfl]
    constructor
    · intro h; exact absurd h (by decide)
    · intro h; omega
  · rw [if_neg hk]
    by_cases hle : e ≤ k
    · rw [if_pos hle]; exact ⟨fun _ => hle, fun _ => rfl⟩
    · rw [if_neg hle]
      constructor
      · intro h; exact absurd h (by decide)
      · intro h; exact absurd h hle

/-- C1 counterexample: the claimed invariant `processed_sections ≤
expected_sections`, and `status = COMPLETED` iff they are equal, fail under
at-least-once redelivery of a section job. With `expected_sections = 1`, two
persistences of the same diff job (first delivery plus one redelivery) leave
the row COMPLETED with `processed_sections = 2 > 1 = expected_sections`. -/
theorem diff_invariant_counterexample :
    execDiff (initDiff 1) [DiffOp.advance, DiffOp.advance] =
      { status := DiffStatus.completed, expected := 1, processed := 2, lastError := none } ∧
    ¬ ((execDiff (initDiff 1) [DiffOp.advance, DiffOp.advance]).processed ≤
        (execDiff (initDiff 1) [DiffOp.advance, DiffOp.advance]).expected) ∧
    ((execDiff (initDiff 1) [DiffOp.advance, DiffOp.advance]).status = DiffStatus.completed ∧
      (execDiff (initDiff 1) [DiffOp.advance, DiffOp.advance]).processed ≠
        (execDiff (initDiff 1) [DiffOp.advance, DiffOp.advance]).expected) := by
  refine ⟨rfl, ?_, rfl, ?_⟩ <;> decide

/-- C1 (amended): each diff-job persistence bumps `processed_sections` by
exactly 1 (and `_persist_results` clears `last_error`); if status was PENDING
or SKIPPED it becomes PROCESSING, except that it becomes COMPLETED as soon as
`processed_sections ≥ expected_sections` with status not FAILED.  Provided the
expected_sections jobs are persisted at most once each (no redelivery),
`0 ≤ processed_sections ≤ expected_sections` holds and status is COMPLETED iff
`processed_sections = expected_sections`; under at-least-once redelivery the
counter can pass `expected_sections`, and then (for `expected_sections > 0`)
status is COMPLETED iff `processed_sections ≥ expected_sections` and no
failure occurred. -/
theorem diff_lifecycle_amended :
    (∀ d : DiffRec, (persistStep d).processed = d.processed + 1 ∧
      (persistStep d).lastError = none ∧
      (noopStep d).processed = d.processed + 1) ∧
    (∀ d : DiffRec, (d.status = DiffStatus.pending ∨ d.status = DiffStatus.skipped) →
      (advanceDiff d).status =
        (if d.expected ≤ d.processed + 1 then DiffStatus.completed
         else DiffStatus.processing)) ∧
    (∀ d : DiffRec, d.status ≠ DiffStatus.failed → d.expected ≤ d.processed + 1 →
      (advanceDiff d).status = DiffStatus.completed) ∧
    (∀ e k : Nat, k ≤ e →
      (execDiff (initDiff e) (List.replicate k DiffOp.advance)).processed = k ∧
      (execDiff (initDiff e) (List.replicate k DiffOp.advance)).processed ≤ e ∧
      (0 < e →
        ((execDiff (initDiff e) (List.replicate k DiffOp.advance)).status =
          DiffStatus.completed ↔ k = e))) ∧
    (∀ (e : Nat) (ops : List DiffOp), 0 < e →
      ((execDiff (initDiff e) ops).status = DiffStatus.completed ↔
        (e ≤ (execDiff (initDiff e) ops).processed ∧ ¬ hasFail ops))) := by
  refine ⟨?_, ?_, ?_, ?_, ?_⟩
  · intro d
    refine ⟨?_, ?_, advanceDiff_processed d⟩
    · show (advanceDiff _).processed = d.processed + 1
      rw [advanceDiff_eq]
    · show (advanceDiff _).lastError = none
      rw [advanceDiff_eq]
  · intro d hd
    rw [advanceDiff_eq]
    have hne : DiffStatus.processing ≠ DiffStatus.failed := by decide
    simp only [if_pos hd]
    by_cases hle : d.expected ≤ d.processed + 1
    · simp [hle, hne]
    · simp [hle, hne]
  · intro d hd hle
    rw [advanceDiff_eq]
    by_cases hp : d.status = DiffStatus.pending ∨ d.status = DiffStatus.skipped
    · simp [hp, hle]
    · simp [hp, hle, hd]
  · intro e k hk
    obtain ⟨hp, hst⟩ := hasFail_count _ (hasFail_replicate k) e
    rw [List.length_replicate] at hp hst
    refine ⟨hp, by omega, ?_⟩
    intro he
    rw [hst, status_formula_completed e k he]
    omega
  · intro e ops he
    by_cases hf : hasFail ops
    · rw [execDiff_hasFail ops (initDiff e) hf]
      constructor
      · intro h; exact absurd h (by decide)
      · intro h; exact absurd hf h.2
    · obtain ⟨hp, hst⟩ := hasFail_count ops hf e
      rw [hp, hst, status_formula_completed e ops.length he]
      exact ⟨fun h => ⟨h, hf⟩, fun h => h.1⟩

/-- C1 witness: the amended lifecycle theorem instantiated at
`expected_sections = 3` with its three jobs persisted exactly once, and at a
two-job run of a five-section diff. -/
theorem diff_lifecycle_amended_witness :
    (execDiff (initDiff 3) (List.replicate 3 DiffOp.advance)).processed = 3 ∧
    ((execDiff (initDiff 3) (List.replicate 3 DiffOp.advance)).status =
      DiffStatus.completed ↔ (3 : Nat) = 3) ∧
    (execDiff (initDiff 5) (List.replicate 2 DiffOp.advance)).processed ≤ 5 := by
  obtain ⟨-, -, -, h4, -⟩ := diff_lifecycle_amended
  obtain ⟨ha, -, hc⟩ := h4 3 3 (by decide)
  obtain ⟨-, hb, -⟩ := h4 5 2 (by decide)
  exact ⟨ha, hc (by decide), hb⟩

/-- C5: evaluating the diff worker at scenario S4 shows the claimed outcome
is unreachable in the source. The ordinal-1 and ordinal-3 jobs take the
stripped-equal noop path and advance the counter, but the ordinal-2
persistence — one normalised `update` change — calls
`FilingSectionDiff(..., metadata_json=...)`, raises TypeError, rolls back,
and returns the job unacknowledged with the database unchanged: no
SectionDiff row is ever inserted, `processed_sections` sticks at 2 of 3, and
the Diff row stays PROCESSING instead of reaching COMPLETED. -/
theorem diff_scenario_s4_crash :
    s4Db0.diff.status = DiffStatus.pending ∧
    s4Run1.1 = true ∧
    s4Run1.2.diff =
      { status := DiffStatus.processing, expected := 3, processed := 1,
        lastError := none } ∧
    persistResultsDb s4Run1.2 (s4Task 2) s4UpdateChanges (some s4UpdateResult) = none ∧
    s4Run2 = (false, s4Run1.2) ∧
    s4Run3.1 = true ∧
    s4Run3.2.diff =
      { status := DiffStatus.processing, expected := 3, processed := 2,
        lastError := none } ∧
    s4Run3.2.rows = [] ∧
    s4Run3.2.diff.status ≠ DiffStatus.completed ∧
    s4Run3.2.diff.processed ≠ s4Run3.2.diff.expected := by
  decide

/-- C2: with one task in flight, a pop whose delivery is never acked and whose
visibility timeout has expired makes the next pop return the same payload
under a fresh token; an ack bearing the first (stale) token is a no-op that
removes neither the processing entry nor the dedupe key, so the job id stays
dedupe-suppressed after the reclaim. -/
theorem queue_reclaim_semantics (t : QTask) (vt batch n0 n1 : Nat)
    (hvt : 0 < vt) (hb : 0 < batch) (h : n0 + vt ≤ n1) :
    ∃ m1 m2 : QMessage,
      (qpop ⟨vt, batch⟩ n0 (qpush initQState t).2).1 = some m1 ∧
      (qpop ⟨vt, batch⟩ n1 (qpop ⟨vt, batch⟩ n0 (qpush initQState t).2).2).1 = some m2 ∧
      m2.payload = m1.payload ∧
      m2.token ≠ m1.token ∧
      qack (qpop ⟨vt, batch⟩ n1 (qpop ⟨vt, batch⟩ n0 (qpush initQState t).2).2).2 m1 =
        (qpop ⟨vt, batch⟩ n1 (qpop ⟨vt, batch⟩ n0 (qpush initQState t).2).2).2 ∧
      t.jobId ∈ (qpop ⟨vt, batch⟩ n1 (qpop ⟨vt, batch⟩ n0 (qpush initQState t).2).2).2.dedupe ∧
      (qpush (qpop ⟨vt, batch⟩ n1 (qpop ⟨vt, batch⟩ n0 (qpush initQState t).2).2).2 t).1 =
        false := by
  have hvt' : vt ≠ 0 := by omega
  obtain ⟨b, rfl⟩ : ∃ b, batch = b + 1 := ⟨batch - 1, by omega⟩
  have h1 : (qpush initQState t).2 = ⟨[t], [t.jobId], [], [], [], [], 0⟩ := rfl
  rw [h1]
  have h2 : qpop ⟨vt, b + 1⟩ n0 ⟨[t], [t.jobId], [], [], [], [], 0⟩ =
      (some ⟨t, t, t.jobId, 0⟩,
        ⟨[], [t.jobId], [t], [(0, n0 + vt)], [(0, t)], [(t.jobId, 0)], 1⟩) := by
    simp [qpop, requeueExpired, hvt', assocSet]
  rw [h2]
  have h3 : qpop ⟨vt, b + 1⟩ n1 ⟨[], [t.jobId], [t], [(0, n0 + vt)], [(0, t)], [(t.jobId, 0)], 1⟩ =
      (some ⟨t, t, t.jobId, 1⟩,
        ⟨[], [t.jobId], [t], [(1, n1 + vt)], [(1, t)], [(t.jobId, 1)], 2⟩) := by
    simp [qpop, requeueExpired, hvt', h, reclaimToken, assocGet, assocDel, assocSet]
  rw [h3]
  refine ⟨⟨t, t, t.jobId, 0⟩, ⟨t, t, t.jobId, 1⟩, rfl, rfl, rfl, by simp, ?_, ?_, ?_⟩
  · simp [qack, assocGet]
  · simp
  · simp [qpush]

/-- C2 witness: the reclaim theorem at a concrete task, a visibility timeout
of 300, batch size 100, and pops at times 10 and 400. -/
theorem queue_reclaim_semantics_witness :
    ∃ m1 m2 : QMessage,
      (qpop ⟨300, 100⟩ 10 (qpush initQState ⟨"j1", "payload"⟩).2).1 = some m1 ∧
      (qpop ⟨300, 100⟩ 400
        (qpop ⟨300, 100⟩ 10 (qpush initQState ⟨"j1", "payload"⟩).2).2).1 = some m2 ∧
      m2.payload = m1.payload ∧
      m2.token ≠ m1.token ∧
      qack (qpop ⟨300, 100⟩ 400
          (qpop ⟨300, 100⟩ 10 (qpush initQState ⟨"j1", "payload"⟩).2).2).2 m1 =
        (qpop ⟨300, 100⟩ 400
          (qpop ⟨300, 100⟩ 10 (qpush initQState ⟨"j1", "payload"⟩).2).2).2 ∧
      (⟨"j1", "payload"⟩ : QTask).jobId ∈
        (qpop ⟨300, 100⟩ 400
          (qpop ⟨300, 100⟩ 10 (qpush initQState ⟨"j1", "payload"⟩).2).2).2.dedupe ∧
      (qpush (qpop ⟨300, 100⟩ 400
          (qpop ⟨300, 100⟩ 10 (qpush initQState ⟨"j1", "payload"⟩).2).2).2
        ⟨"j1", "payload"⟩).1 = false :=
  queue_reclaim_semantics ⟨"j1", "payload"⟩ 300 100 10 400
    (by decide) (by decide) (by decide)

/-- C3: pushing a task twice with the same job id enqueues it once — the first
push appends the payload and returns true, the second is a no-op returning
false; one pop delivers the payload and, before the visibility timeout
expires, no further pop delivers it; the job id stays dedupe-suppressed until
an ack, after which it can be enqueued again. The in-memory queue's push
behaves identically. -/
theorem queue_push_dedupe (t : QTask) (vt batch n0 n1 : Nat)
    (hvt : 0 < vt) (h : n1 < n0 + vt) :
    qpush initQState t = (true, ⟨[t], [t.jobId], [], [], [], [], 0⟩) ∧
    qpush (qpush initQState t).2 t = (false, (qpush initQState t).2) ∧
    (∃ m : QMessage,
      (qpop ⟨vt, batch⟩ n0 (qpush initQState t).2).1 = some m ∧
      m.payload = t ∧
      (qpop ⟨vt, batch⟩ n1 (qpop ⟨vt, batch⟩ n0 (qpush initQState t).2).2).1 = none ∧
      (qpush (qpop ⟨vt, batch⟩ n1 (qpop ⟨vt, batch⟩ n0 (qpush initQState t).2).2).2 t).1 =
        false ∧
      (qpush (qack (qpop ⟨vt, batch⟩ n1
          (qpop ⟨vt, batch⟩ n0 (qpush initQState t).2).2).2 m) t).1 = true) ∧
    (memPush ⟨[], []⟩ t).1 = true ∧
    (memPush (memPush ⟨[], []⟩ t).2 t) = (false, (memPush ⟨[], []⟩ t).2) := by
  have hvt' : vt ≠ 0 := by omega
  have h' : ¬ (n0 + vt ≤ n1) := by omega
  have h1 : (qpush initQState t) = (true, ⟨[t], [t.jobId], [], [], [], [], 0⟩) := rfl
  refine ⟨h1, ?_, ?_, rfl, ?_⟩
  · rw [h1]
    simp [qpush]
  · rw [h1]
    have h2 : qpop ⟨vt, batch⟩ n0 ⟨[t], [t.jobId], [], [], [], [], 0⟩ =
        (some ⟨t, t, t.jobId, 0⟩,
          ⟨[], [t.jobId], [t], [(0, n0 + vt)], [(0, t)], [(t.jobId, 0)], 1⟩) := by
      simp [qpop, requeueExpired, hvt', assocSet]
    rw [h2]
    have h3 : qpop ⟨vt, batch⟩ n1
        ⟨[], [t.jobId], [t], [(0, n0 + vt)], [(0, t)], [(t.jobId, 0)], 1⟩ =
        (none, ⟨[], [t.jobId], [t], [(0, n0 + vt)], [(0, t)], [(t.jobId, 0)], 1⟩) := by
      simp [qpop, requeueExpired, hvt', h']
    rw [h3]
    refine ⟨⟨t, t, t.jobId, 0⟩, rfl, rfl, rfl, by simp [qpush], ?_⟩
    have h4 : qack ⟨[], [t.jobId], [t], [(0, n0 + vt)], [(0, t)], [(t.jobId, 0)], 1⟩
        ⟨t, t, t.jobId, 0⟩ = ⟨[], [], [], [], [], [], 1⟩ := by
      simp [qack, assocGet, assocDel]
    rw [h4]
    simp [qpush]
  · simp [memPush]

/-- C3 witness: the dedupe theorem at a concrete task, a visibility timeout of
300, batch size 100, and pops at times 10 and 20. -/
theorem queue_push_dedupe_witness :
    qpush initQState ⟨"j1", "payload"⟩ =
      (true, ⟨[⟨"j1", "payload"⟩], ["j1"], [], [], [], [], 0⟩) ∧
    qpush (qpush initQState ⟨"j1", "payload"⟩).2 ⟨"j1", "payload"⟩ =
      (false, (qpush initQState ⟨"j1", "payload"⟩).2) ∧
    (∃ m : QMessage,
      (qpop ⟨300, 100⟩ 10 (qpush initQState ⟨"j1", "payload"⟩).2).1 = some m ∧
      m.payload = ⟨"j1", "payload"⟩ ∧
      (qpop ⟨300, 100⟩ 20
        (qpop ⟨300, 100⟩ 10 (qpush initQState ⟨"j1", "payload"⟩).2).2).1 = none ∧
      (qpush (qpop ⟨300, 100⟩ 20
          (qpop ⟨300, 100⟩ 10 (qpush initQState ⟨"j1", "payload"⟩).2).2).2
        ⟨"j1", "payload"⟩).1 = false ∧
      (qpush (qack (qpop ⟨300, 100⟩ 20
          (qpop ⟨300, 100⟩ 10 (qpush initQState ⟨"j1", "payload"⟩).2).2).2 m)
        ⟨"j1", "payload"⟩).1 = true) ∧
    (memPush ⟨[], []⟩ ⟨"j1", "payload"⟩).1 = true ∧
    (memPush (memPush ⟨[], []⟩ ⟨"j1", "payload"⟩).2 ⟨"j1", "payload"⟩) =
      (false, (memPush ⟨[], []⟩ ⟨"j1", "payload"⟩).2) :=
  queue_push_dedupe ⟨"j1", "payload"⟩ 300 100 10 20 (by decide) (by decide)

-- Budget helper lemmas.

theorem budget_step_invariant (limit : Int) (s : BudgetState) (hs : s.counter ≤ limit)
    (op : BudgetOp) (hop : commitsBounded op) :
    (budgetStep limit s op).counter ≤ limit := by
  cases op with
  | reserveOp a =>
    show (reserveStep limit s a).2.counter ≤ limit
    unfold reserveStep
    by_cases h : limit < s.counter + a
    · simp only [if_pos h]
      omega
    · simp only [if_neg h]
      omega
  | finalizeOp r u =>
    obtain ⟨hr, hu⟩ := hop
    show (finalizeStep limit s r u).counter ≤ limit
    unfold finalizeStep
    have hle : max u 0 - r ≤ 0 := by omega
    by_cases h0 : max u 0 - r = 0
    · simp only [if_pos h0]; exact hs
    · simp only [if_neg h0]
      have hlt : max u 0 - r < 0 := by omega
      simp only [if_pos hlt]
      omega

theorem execBudget_invariant (limit : Int) (ops : List BudgetOp)
    (hwf : ∀ op ∈ ops, commitsBounded op) :
    ∀ s : BudgetState, s.counter ≤ limit → (execBudget limit s ops).counter ≤ limit := by
  induction ops with
  | nil => intro s hs; exact hs
  | cons op ops ih =>
    intro s hs
    exact ih (fun o ho => hwf o (List.mem_cons_of_mem op ho))
      (budgetStep limit s op)
      (budget_step_invariant limit s hs op (hwf op (List.mem_cons_self op ops)))

/-- C4 counterexample: the day counter observably exceeds the limit. With
limit 50, after a granted reserve(40), a commit of 60 tokens (used greater
than reserved) leaves the counter at 60 > 50 permanently; and during the
denied reserve(20) the Redis value between the INCRBY and the compensating
DECRBY is 60 > 50. -/
theorem budget_limit_counterexample :
    (reserveStep 50 ⟨0, 0⟩ 40).1 = some 40 ∧
    (reserveStep 50 ⟨0, 0⟩ 40).2.counter = 40 ∧
    (finalizeStep 50 ⟨40, 0⟩ 40 60).counter = 60 ∧
    (50 : Int) < (finalizeStep 50 ⟨40, 0⟩ 40 60).counter ∧
    reserveIncrPhase 40 20 = 60 ∧
    (50 : Int) < reserveIncrPhase 40 20 ∧
    (reserveStep 50 ⟨40, 0⟩ 20).1 = none := by
  refine ⟨rfl, by decide, by decide, by decide, by decide, by decide, rfl⟩

/-- C4 (amended): at operation boundaries the counter never exceeds the daily
limit as long as every finalize commits at most its reservation — a granted
reserve fits under the limit, a denied reserve nets out to the prior value,
and a bounded commit can only lower the counter. The excess is real only
inside a denied reserve (between its INCRBY and DECRBY) and after an
over-commit with used greater than reserved, which leaves the counter above
the limit and only bumps the exhaustion metric. -/
theorem budget_limit_amended (limit : Int) (hl : 0 ≤ limit) (ops : List BudgetOp)
    (hwf : ∀ op ∈ ops, commitsBounded op) :
    (execBudget limit ⟨0, 0⟩ ops).counter ≤ limit ∧
    (∀ (s : BudgetState) (a : Int), (reserveStep limit s a).1 = none →
      (reserveStep limit s a).2.counter = s.counter) := by
  constructor
  · exact execBudget_invariant limit ops hwf ⟨0, 0⟩ hl
  · intro s a h
    unfold reserveStep at h ⊢
    by_cases hlt : limit < s.counter + a
    · simp only [if_pos hlt]
      omega
    · simp only [if_neg hlt] at h
      exact Option.noConfusion h

/-- C4 witness: the amended bound at limit 50 over the boundary trace
reserve(40), commit(40), denied reserve(20), and the denial-restores-counter
fact at a concrete state. -/
theorem budget_limit_amended_witness :
    (execBudget 50 ⟨0, 0⟩
      [BudgetOp.reserveOp 40, BudgetOp.finalizeOp 40 40, BudgetOp.reserveOp 20]).counter ≤
      50 ∧
    (reserveStep 50 ⟨40, 0⟩ 20).2.counter = 40 := by
  obtain ⟨h1, h2⟩ := budget_limit_amended 50 (by decide)
    [BudgetOp.reserveOp 40, BudgetOp.finalizeOp 40 40, BudgetOp.reserveOp 20]
    (by decide)
  exact ⟨h1, h2 ⟨40, 0⟩ 20 (by decide)⟩

/-- C9: a reserve that would push the day counter past the limit decrements
back to the prior value, raises (returns `none`), and bumps the exhaustion
counter; in scenario S6 with limit 50, after reserve(40).commit(40) the
second reserve(20) is denied with the counter still at 40 and one exhaustion,
and the summary worker returns the job unacknowledged, recording a deferral. -/
theorem budget_denial_semantics (c amount limit : Int) (ex : Nat)
    (h : limit < c + amount) :
    reserveStep limit ⟨c, ex⟩ amount = (none, ⟨c, ex + 1⟩) ∧
    reserveStep 50 ⟨0, 0⟩ 40 = (some 40, ⟨40, 0⟩) ∧
    finalizeStep 50 ⟨40, 0⟩ 40 40 = ⟨40, 0⟩ ∧
    reserveStep 50 ⟨40, 0⟩ 20 = (none, ⟨40, 1⟩) ∧
    (∀ (maxRetries maxOutputTokens deferrals : Nat) (resps : List LlmResp),
      summaryHandleMessage 50 maxRetries maxOutputTokens ⟨40, 0⟩ deferrals true 20 resps =
        ⟨false, ⟨40, 1⟩, deferrals + 1, false⟩) := by
  refine ⟨?_, by decide, by decide, by decide, ?_⟩
  · unfold reserveStep
    simp only [if_pos h]
    have : c + amount - amount = c := by omega
    rw [this]
  · intro maxRetries maxOutputTokens deferrals resps
    rfl

/-- C9 witness: the denial theorem at counter 0, amount 60, limit 50 and at
the concrete S6 trace with an empty oracle. -/
theorem budget_denial_semantics_witness :
    reserveStep 50 ⟨0, 0⟩ 60 = (none, ⟨0, 1⟩) ∧
    summaryHandleMessage 50 2 512 ⟨40, 0⟩ 0 true 20 [] = ⟨false, ⟨40, 1⟩, 1, false⟩ := by
  obtain ⟨h1, -, -, -, h5⟩ := budget_denial_semantics 0 60 50 0 (by decide)
  exact ⟨h1, h5 2 512 0 []⟩

-- Retry-policy helper lemma.

theorem diffWithRetry_ne_retryable (maxRetries : Nat) (resps : List LlmResp) :
    ∀ attempt : Nat, diffWithRetry maxRetries attempt resps ≠ RetryClass.retryable := by
  induction resps with
  | nil => intro attempt; simp [diffWithRetry]
  | cons r rest ih =>
    intro attempt
    cases r with
    | success res => simp [diffWithRetry]
    | httpStatus status =>
      unfold diffWithRetry
      by_cases hs : status = 429 ∨ status = 500 ∨ status = 502 ∨ status = 503 ∨ status = 504
      · simp only [if_pos hs]
        by_cases ha : maxRetries < attempt + 1
        · simp [ha]
        · simp only [if_neg ha]
          exact ih (attempt + 1)
      · simp [hs]
    | netError =>
      unfold diffWithRetry
      by_cases ha : maxRetries < attempt + 1
      · simp [ha]
      · simp only [if_neg ha]
        exact ih (attempt + 1)

/-- C8 counterexample: the diff worker's retry policy does not mirror the
summary worker's. On status 408 the summary helper retries and succeeds while
the diff helper fails fatally at once; and when retries are exhausted on a
retried status the summary helper classifies retryable (return without ack)
while the diff helper classifies fatal (mark FAILED, ack and drop). -/
theorem diff_retry_counterexample :
    diffWithRetry 3 0 [LlmResp.httpStatus 408, LlmResp.success ⟨"ok", "m", 1, 1, 2⟩] =
      RetryClass.fatal ∧
    summarizeWithRetry 3 0 [LlmResp.httpStatus 408, LlmResp.success ⟨"ok", "m", 1, 1, 2⟩] =
      RetryClass.ok ⟨"ok", "m", 1, 1, 2⟩ ∧
    diffWithRetry 1 0 [LlmResp.httpStatus 429, LlmResp.httpStatus 429] = RetryClass.fatal ∧
    summarizeWithRetry 1 0 [LlmResp.httpStatus 429, LlmResp.httpStatus 429] =
      RetryClass.retryable := by
  refine ⟨by decide, by decide, by decide, by decide⟩

/-- C8 (amended): the diff worker retries with backoff up to `max_retries`
exactly on statuses 429, 500, 502, 503, 504 and on network errors; any other
status (408 included) is fatal immediately; exhausting the retries on a
transient error is also classified fatal — `_handle_message` then marks the
Diff row FAILED and acks the job — and no input is ever classified retryable,
so the no-ack requeue path of the claim is unreachable; the summary worker,
by contrast, retries 408, 429 and every status at or above 500 and classifies
exhaustion as retryable. -/
theorem diff_retry_policy_amended (maxRetries attempt status : Nat)
    (rest : List LlmResp) :
    ((status = 429 ∨ status = 500 ∨ status = 502 ∨ status = 503 ∨ status = 504) →
      diffWithRetry maxRetries attempt (LlmResp.httpStatus status :: rest) =
        (if maxRetries < attempt + 1 then RetryClass.fatal
         else diffWithRetry maxRetries (attempt + 1) rest)) ∧
    (¬ (status = 429 ∨ status = 500 ∨ status = 502 ∨ status = 503 ∨ status = 504) →
      diffWithRetry maxRetries attempt (LlmResp.httpStatus status :: rest) =
        RetryClass.fatal) ∧
    (diffWithRetry maxRetries attempt (LlmResp.netError :: rest) =
      (if maxRetries < attempt + 1 then RetryClass.fatal
       else diffWithRetry maxRetries (attempt + 1) rest)) ∧
    (∀ resps : List LlmResp,
      diffWithRetry maxRetries attempt resps ≠ RetryClass.retryable) ∧
    ((status = 408 ∨ status = 429 ∨ 500 ≤ status) →
      summarizeWithRetry maxRetries attempt (LlmResp.httpStatus status :: rest) =
        (if maxRetries < attempt + 1 then RetryClass.retryable
         else summarizeWithRetry maxRetries (attempt + 1) rest)) ∧
    (∀ (db : DiffDB) (t : DTask) (currSection prevSection : Option String) (msg : String),
      handleDiffSnippet db t currSection prevSection (LlmDiffOutcome.fatal msg) =
        (if pySplitlines (prevSection.getD "") ≠ pySplitlines (currSection.getD "") then
          (true, markFailedDb db msg)
         else
          (match persistResultsDb db t (synthesizedChanges currSection prevSection) none with
           | some db2 => (true, db2)
           | none => (false, db))) ∧
      handleDiffSnippet db t currSection prevSection LlmDiffOutcome.retryable =
        (if pySplitlines (prevSection.getD "") ≠ pySplitlines (currSection.getD "") then
          (false, db)
         else
          (match persistResultsDb db t (synthesizedChanges currSection prevSection) none with
           | some db2 => (true, db2)
           | none => (false, db)))) := by
  refine ⟨?_, ?_, ?_, fun resps => diffWithRetry_ne_retryable maxRetries resps attempt,
    ?_, ?_⟩
  · intro hs
    conv_lhs => unfold diffWithRetry
    simp only [if_pos hs]
  · intro hs
    conv_lhs => unfold diffWithRetry
    simp only [if_neg hs]
  · rfl
  · intro hs
    conv_lhs => unfold summarizeWithRetry
    simp only [if_pos hs]
  · intro db t currSection prevSection msg
    exact ⟨rfl, rfl⟩

/-- C8 witness: the amended retry-policy theorem instantiated at status 502
with one remaining retry, at status 408, and at a concrete diff-worker state
for the fatal ack-and-mark-FAILED path. -/
theorem diff_retry_policy_amended_witness :
    diffWithRetry 2 0 [LlmResp.httpStatus 502, LlmResp.success ⟨"ok", "m", 1, 1, 2⟩] =
      RetryClass.ok ⟨"ok", "m", 1, 1, 2⟩ ∧
    diffWithRetry 2 0 [LlmResp.httpStatus 408] = RetryClass.fatal ∧
    handleDiffSnippet ⟨initDiff 1, [], []⟩ ⟨"j", 1, 1, "T"⟩ (some "new text") (some "old text")
        (LlmDiffOutcome.fatal "Exceeded retries") =
      (true, markFailedDb ⟨initDiff 1, [], []⟩ "Exceeded retries") := by
  obtain ⟨h1, -, -, -, -, -⟩ := diff_retry_policy_amended 2 0 502
    [LlmResp.success ⟨"ok", "m", 1, 1, 2⟩]
  obtain ⟨-, h2, -, -, -, -⟩ := diff_retry_policy_amended 2 0 408 []
  obtain ⟨-, -, -, -, -, h6⟩ := diff_retry_policy_amended 2 0 408 []
  refine ⟨?_, h2 (by decide), ?_⟩
  · rw [h1 (by decide)]
    decide
  · have h := (h6 ⟨initDiff 1, [], []⟩ ⟨"j", 1, 1, "T"⟩ (some "new text") (some "old text")
      "Exceeded retries").1
    rw [h]
    decide

-- Chunk-planner helper lemmas.

theorem mem_closeChunk (opts : ChunkPlannerOptions) (chunks : List Chunk)
    (cur : List String) (h : ∀ c ∈ chunks, opts.minTokensPerChunk ≤ c.estimatedTokens) :
    ∀ c ∈ closeChunk opts chunks cur, opts.minTokensPerChunk ≤ c.estimatedTokens := by
  intro c hc
  simp only [closeChunk] at hc
  split at hc
  · rcases List.mem_append.1 hc with h1 | h1
    · exact h c h1
    · rcases List.mem_singleton.1 h1 with rfl
      assumption
  · exact h c hc

theorem mem_chunkAux (opts : ChunkPlannerOptions) (paragraphs : List String) :
    ∀ (chunks : List Chunk) (cur : List String) (curTokens : Nat),
      (∀ c ∈ chunks, opts.minTokensPerChunk ≤ c.estimatedTokens) →
      ∀ c ∈ chunkAux opts chunks cur curTokens paragraphs,
        opts.minTokensPerChunk ≤ c.estimatedTokens := by
  induction paragraphs with
  | nil =>
    intro chunks cur curTokens h c hc
    simp only [chunkAux] at hc
    split at hc
    · exact h c hc
    · exact mem_closeChunk opts chunks cur h c hc
  | cons p rest ih =>
    intro chunks cur curTokens h c hc
    simp only [chunkAux] at hc
    split at hc
    · exact ih _ _ _ (mem_closeChunk opts chunks cur h) c hc
    · exact ih _ _ _ h c hc

theorem chunkGroups_flatten (maxT : Nat) (paragraphs : List String) :
    ∀ (cur : List String) (curTokens : Nat),
      (chunkGroups maxT cur curTokens paragraphs).flatten = cur ++ paragraphs := by
  induction paragraphs with
  | nil =>
    intro cur curTokens
    unfold chunkGroups
    by_cases hc : cur.isEmpty
    · rw [if_pos hc, List.isEmpty_iff.1 hc]
      rfl
    · rw [if_neg hc]
      simp
  | cons p rest ih =>
    intro cur curTokens
    simp only [chunkGroups]
    split
    · rw [List.flatten_cons, ih [p] (estimateTokens p)]
      rfl
    · rw [ih (cur ++ [p]) (curTokens + estimateTokens p)]
      simp

theorem chunkAux_contents_no_min (opts : ChunkPlannerOptions)
    (hmin : opts.minTokensPerChunk = 0) (paragraphs : List String) :
    ∀ (chunks : List Chunk) (cur : List String) (curTokens : Nat),
      (chunkAux opts chunks cur curTokens paragraphs).map (fun c => c.content) =
        chunks.map (fun c => c.content) ++
          (chunkGroups opts.maxTokensPerChunk cur curTokens paragraphs).map
            (joinSep "\n\n") := by
  have hclose : ∀ (chunks : List Chunk) (cur : List String),
      (closeChunk opts chunks cur).map (fun c => c.content) =
        chunks.map (fun c => c.content) ++ [joinSep "\n\n" cur] := by
    intro chunks cur
    simp only [closeChunk]
    rw [if_pos (by omega)]
    simp
  induction paragraphs with
  | nil =>
    intro chunks cur curTokens
    simp only [chunkAux, chunkGroups]
    by_cases hc : cur.isEmpty
    · rw [if_pos hc, if_pos hc]
      simp
    · rw [if_neg hc, if_neg hc, hclose]
      simp
  | cons p rest ih =>
    intro chunks cur curTokens
    simp only [chunkAux, chunkGroups]
    split
    · rw [ih _ _ _, hclose]
      simp
    · rw [ih _ _ _]

/-- C7 counterexample: a nonempty section whose single paragraph estimates
below `min_tokens_per_chunk` yields no chunks at all — the under-min
remainder is discarded, not extended forward, and the paragraph appears in no
emitted chunk. -/
theorem chunk_planner_counterexample :
    splitParagraphs "Short section." = ["Short section."] ∧
    chunkSectionParas defaultPlannerOptions (splitParagraphs "Short section.") = [] ∧
    chunkSection defaultPlannerOptions
      { ordinal := 1, title := "Item 1", content := "Short section." } = [] := by
  refine ⟨by decide, by decide, by decide⟩

/-- C7 (amended): the planner accumulates whole paragraphs until the running
estimate would pass `max_tokens_per_chunk`; every emitted chunk's recomputed
estimate is at least `min_tokens_per_chunk`, a closed or remaining group
below the minimum being discarded rather than extended; and the closed groups
are consecutive and disjoint — their concatenation is exactly the paragraph
list, so chunk contents never overlap (`paragraph_overlap` only shifts the
synthetic start/end indices) and a paragraph can appear in no chunk. -/
theorem chunk_planner_amended :
    (∀ (opts : ChunkPlannerOptions) (paragraphs : List String),
      ∀ c ∈ chunkSectionParas opts paragraphs,
        opts.minTokensPerChunk ≤ c.estimatedTokens) ∧
    (∀ (maxT : Nat) (paragraphs : List String),
      (chunkGroups maxT [] 0 paragraphs).flatten = paragraphs) ∧
    (∀ (opts : ChunkPlannerOptions), opts.minTokensPerChunk = 0 →
      ∀ paragraphs : List String,
        (chunkSectionParas opts paragraphs).map (fun c => c.content) =
          (chunkGroups opts.maxTokensPerChunk [] 0 paragraphs).map (joinSep "\n\n")) ∧
    chunkSectionParas (⟨30, 10, 1⟩ : ChunkPlannerOptions)
      ["Paragraph one about business outlook.",
       "Paragraph two with more detail and some additional sentences.",
       "Paragraph three contains risk discussion and implications for investors.",
       "Paragraph four summarizes the strategy going forward."] =
      [{ startIndex := 0, endIndex := 2,
         content := "Paragraph one about business outlook.\n\nParagraph two with more detail and some additional sentences.",
         estimatedTokens := 19 },
       { startIndex := 1, endIndex := 3,
         content := "Paragraph three contains risk discussion and implications for investors.\n\nParagraph four summarizes the strategy going forward.",
         estimatedTokens := 21 }] := by
  refine ⟨?_, ?_, ?_, by decide⟩
  · intro opts paragraphs c hc
    exact mem_chunkAux opts paragraphs [] [] 0 (by intro c hc; cases hc) c hc
  · intro maxT paragraphs
    rw [chunkGroups_flatten maxT paragraphs [] 0]
    rfl
  · intro opts hmin paragraphs
    unfold chunkSectionParas
    rw [chunkAux_contents_no_min opts hmin paragraphs [] [] 0]
    rfl

/-- C7 witness: the amended planner theorem instantiated at the
four-paragraph reference section — the first emitted chunk is a member of the
plan and meets the 10-token minimum, and with the minimum disabled the chunk
contents are exactly the joined disjoint groups. -/
theorem chunk_planner_amended_witness :
    (10 : Nat) ≤
      ({ startIndex := 0, endIndex := 2,
         content := "Paragraph one about business outlook.\n\nParagraph two with more detail and some additional sentences.",
         estimatedTokens := 19 } : Chunk).estimatedTokens ∧
    (chunkGroups 30 [] 0 ["alpha beta", "gamma delta"]).flatten =
      ["alpha beta", "gamma delta"] ∧
    (chunkSectionParas (⟨30, 0, 1⟩ : ChunkPlannerOptions)
        ["alpha beta", "gamma delta"]).map (fun c => c.content) =
      (chunkGroups 30 [] 0 ["alpha beta", "gamma delta"]).map (joinSep "\n\n") := by
  obtain ⟨h1, h2, h3, h4⟩ := chunk_planner_amended
  refine ⟨?_, h2 30 ["alpha beta", "gamma delta"], ?_⟩
  · refine h1 (⟨30, 10, 1⟩ : ChunkPlannerOptions)
      ["Paragraph one about business outlook.",
       "Paragraph two with more detail and some additional sentences.",
       "Paragraph three contains risk discussion and implications for investors.",
       "Paragraph four summarizes the strategy going forward."] _ ?_
    rw [h4]
    decide
  · exact h3 (⟨30, 0, 1⟩ : ChunkPlannerOptions) rfl ["alpha beta", "gamma delta"]

set_option maxRecDepth 4096 in
/-- C6: evaluating `ChunkPlanner.plan` at a filing with two sections of 160
words each (one chunk per section under the default options) shows that every
emitted ChunkTask carries the same job id `<accession>-<epoch seconds>` —
not `<accession>:<section_ordinal>:<chunk_index>` — so two distinct chunks of
the same filing do share a job id. -/
theorem chunk_job_id_collision :
    (planChunkJobs "0001234567-25-000001" 1700000000 defaultPlannerOptions
        [{ ordinal := 1, title := "Item 1", content := repeatWords 160 },
         { ordinal := 2, title := "Item 2", content := repeatWords 160 }]).map
      (fun t => (t.jobId, t.sectionOrdinal, t.chunkIndex)) =
      [("0001234567-25-000001-1700000000", 1, 0),
       ("0001234567-25-000001-1700000000", 2, 0)] := by
  decide

-- Sectionizer helper facts are inlined in the fallback theorem below.

/-- C10: `extract_sections` always returns a non-empty list; when no heading
line is found, and likewise when headings are found but every candidate
section's body strips to empty (so all are dropped), the result is the single
section titled Full Filing whose content is the whole normalised text. -/
theorem extract_sections_fallback (text : String) :
    extractSections text ≠ [] ∧
    (headingIndices (linesOfText text) = [] →
      extractSections text =
        [{ title := "Full Filing", content := normalizeWhitespace text }]) ∧
    (headingIndices (linesOfText text) ≠ [] →
      (∀ pr ∈ (headingIndices (linesOfText text) ++
            [("__END__", (linesOfText text).length)]).zip
          ((headingIndices (linesOfText text) ++
            [("__END__", (linesOfText text).length)]).tail),
        sectionBody (linesOfText text) pr.1.2 pr.2.2 = "") →
      extractSections text =
        [{ title := "Full Filing", content := normalizeWhitespace text }]) := by
  refine ⟨?_, ?_, ?_⟩
  · unfold extractSections
    cases hi : (headingIndices (linesOfText text)).isEmpty with
    | true => simp [hi]
    | false =>
      simp only [hi, Bool.false_eq_true, if_false]
      cases hs : (buildSections (linesOfText text)
          (headingIndices (linesOfText text) ++
            [("__END__", (linesOfText text).length)])).isEmpty with
      | true => simp
      | false =>
        simp only [Bool.false_eq_true, if_false]
        intro hnil
        rw [hnil] at hs
        exact Bool.noConfusion hs
  · intro h
    unfold extractSections
    simp [h]
  · intro h hall
    have hb : buildSections (linesOfText text)
        (headingIndices (linesOfText text) ++
          [("__END__", (linesOfText text).length)]) = [] := by
      unfold buildSections
      rw [List.filterMap_eq_nil_iff]
      intro pr hpr
      rw [hall pr hpr]
      simp
    unfold extractSections
    have hi : ¬ (headingIndices (linesOfText text)).isEmpty := by
      simpa using h
    simp only [List.isEmpty_iff] at hi
    simp [hi, hb]

/-- C10 witness: the fallback theorem at a heading-free text and at a text
whose single item heading has an empty body. -/
theorem extract_sections_fallback_witness :
    extractSections "plain text without headings" =
      [{ title := "Full Filing", content := "plain text without headings" }] ∧
    extractSections "Item 1. Business" =
      [{ title := "Full Filing", content := "Item 1. Business" }] := by
  have h1 := (extract_sections_fallback "plain text without headings").2.1 (by decide)
  have h2 := (extract_sections_fallback "Item 1. Business").2.2 (by decide) (by decide)
  constructor
  · rw [h1]
    decide
  · rw [h2]
    decide

end SecFiling
